import Mathlib

/-!
# Verification of go-diameter AVP codec types and watchdog handler

Shallow embedding of `base/types.go` (AVP value codecs) and the `sm`
package's `handleDWR` watchdog handler. Go byte slices are modelled as
`List Nat` (each element a byte value), Go byte strings likewise;
`uint32` arithmetic is modelled on `Nat` with explicit `% 2^32`,
`int32`/`int64` values as `Int` with explicit two's-complement
conversion at the encode/decode boundary, and `float32`/`float64`
values by their IEEE-754 bit patterns (the codec only moves their bits,
never interprets them arithmetically). Methods that mutate their
receiver are modelled as state-passing functions; a method that both
mutates and returns a value returns a pair `(new state, result)`.
-/

namespace GoDiameter

/-- Modelled from the spec: `pad4` is called by `base/types.go` but its
definition is not among the provided sources. The spec gives
`pad_to_4(n) = ((n + 3) / 4) * 4` with integer division. -/
def pad4 (n : Nat) : Nat := ((n + 3) / 4) * 4

/-! ## Big-endian byte serialization (embedding of encoding/binary BigEndian) -/

/-- Big-endian byte list of width `w` for the natural number `n`
(the low `8*w` bits of `n`), as written by `binary.Write(..., BigEndian, v)`. -/
def beBytes : Nat → Nat → List Nat
  | 0, _ => []
  | w + 1, n => beBytes w (n / 256) ++ [n % 256]

/-- Big-endian decoding of a byte list, as read by
`binary.Read(..., BigEndian, &v)`. -/
def beDecode (bs : List Nat) : Nat :=
  bs.foldl (fun acc b => acc * 256 + b) 0

theorem beBytes_length (w n : Nat) : (beBytes w n).length = w := by
  induction w generalizing n with
  | zero => rfl
  | succ w ih => simp [beBytes, ih]

theorem mod_byte_decomp (w n : Nat) :
    n % 256 ^ (w + 1) = 256 * (n / 256 % 256 ^ w) + n % 256 := by
  have hP : 0 < 256 ^ w := Nat.pos_pow_of_pos w (by omega)
  have hsplit : n = 256 * (n / 256) + n % 256 := (Nat.div_add_mod n 256).symm
  have hpow : 256 ^ (w + 1) = 256 * 256 ^ w := by ring
  have hmul : 256 * (n / 256) % (256 * 256 ^ w) = 256 * (n / 256 % 256 ^ w) :=
    Nat.mul_mod_mul_left 256 (n / 256) (256 ^ w)
  have hr : n % 256 < 256 := Nat.mod_lt _ (by omega)
  have hq : n / 256 % 256 ^ w < 256 ^ w := Nat.mod_lt _ hP
  calc n % 256 ^ (w + 1)
      = (256 * (n / 256) + n % 256) % (256 * 256 ^ w) := by rw [← hsplit, hpow]
    _ = (256 * (n / 256) % (256 * 256 ^ w) + n % 256 % (256 * 256 ^ w))
          % (256 * 256 ^ w) := Nat.add_mod _ _ _
    _ = (256 * (n / 256 % 256 ^ w) + n % 256) % (256 * 256 ^ w) := by
        rw [hmul, Nat.mod_eq_of_lt (show n % 256 < 256 * 256 ^ w by nlinarith)]
    _ = 256 * (n / 256 % 256 ^ w) + n % 256 := Nat.mod_eq_of_lt (by nlinarith)

theorem beDecode_beBytes_general (w : Nat) : ∀ n a : Nat,
    List.foldl (fun acc b => acc * 256 + b) a (beBytes w n)
      = a * 256 ^ w + n % 256 ^ w := by
  induction w with
  | zero => intro n a; simp [beBytes, Nat.mod_one]
  | succ w ih =>
    intro n a
    rw [beBytes, List.foldl_append, ih]
    simp only [List.foldl_cons, List.foldl_nil]
    rw [mod_byte_decomp w n]
    ring

/-- Decoding a big-endian encoding recovers the value modulo `256^w`. -/
theorem beDecode_beBytes (w n : Nat) : beDecode (beBytes w n) = n % 256 ^ w := by
  unfold beDecode
  rw [beDecode_beBytes_general w n 0]
  ring

/-! ## OctetString (base/types.go lines 18-65) and its family -/

/-- `OctetString` Diameter type: `Value string; Padding uint32`.
The Go byte string `Value` is modelled as a byte list. -/
structure OctetString where
  Value : List Nat
  Padding : Nat
  deriving DecidableEq, Repr

/-- A fresh zero `OctetString` (Go zero value: empty string, 0). -/
def freshOS : OctetString := { Value := [], Padding := 0 }

/-- `OctetString.Put`: `l := uint32(len(b)); Padding = pad4(l)-l; Value = string(b)`. -/
def OctetString.Put (os : OctetString) (b : List Nat) : OctetString :=
  { Value := b, Padding := pad4 b.length - b.length }

/-- `OctetString.updatePadding`: recompute `Padding` only when it is 0. -/
def OctetString.updatePadding (os : OctetString) : OctetString :=
  if os.Padding = 0 then
    { os with Padding := pad4 os.Value.length - os.Value.length }
  else os

/-- `OctetString.Bytes`: calls `updatePadding`, then returns `Value` followed
by `Padding` zero octets (`make([]byte, l+Padding)` is zero-filled and `copy`
writes `Value` over its prefix). Returns `(mutated receiver, result)`. -/
def OctetString.Bytes (os : OctetString) : OctetString × List Nat :=
  let os2 := os.updatePadding
  (os2, os2.Value ++ List.replicate os2.Padding 0)

/-- `OctetString.Length`: `uint32(len(os.Value)) - os.Padding`, a `uint32`
subtraction that wraps modulo `2^32`. -/
def OctetString.Length (os : OctetString) : Nat :=
  (os.Value.length % 2 ^ 32 + 2 ^ 32 - os.Padding % 2 ^ 32) % 2 ^ 32

/-- `UTF8String` embeds `OctetString` (struct embedding in Go): all codec
methods are promoted from `OctetString` unchanged. -/
structure UTF8String where
  toOctetString : OctetString
  deriving DecidableEq, Repr

def freshUTF8 : UTF8String := ⟨freshOS⟩

def UTF8String.Put (p : UTF8String) (b : List Nat) : UTF8String :=
  ⟨p.toOctetString.Put b⟩

def UTF8String.Bytes (p : UTF8String) : UTF8String × List Nat :=
  let r := p.toOctetString.Bytes
  (⟨r.1⟩, r.2)

/-- `DiameterIdentity` embeds `OctetString`: codec methods promoted unchanged. -/
structure DiameterIdentity where
  toOctetString : OctetString
  deriving DecidableEq, Repr

def freshDI : DiameterIdentity := ⟨freshOS⟩

def DiameterIdentity.Put (p : DiameterIdentity) (b : List Nat) : DiameterIdentity :=
  ⟨p.toOctetString.Put b⟩

def DiameterIdentity.Bytes (p : DiameterIdentity) : DiameterIdentity × List Nat :=
  let r := p.toOctetString.Bytes
  (⟨r.1⟩, r.2)

/-- `IPFilterRule` embeds `OctetString`: codec methods promoted unchanged. -/
structure IPFilterRule where
  toOctetString : OctetString
  deriving DecidableEq, Repr

def freshIPFR : IPFilterRule := ⟨freshOS⟩

def IPFilterRule.Put (p : IPFilterRule) (b : List Nat) : IPFilterRule :=
  ⟨p.toOctetString.Put b⟩

def IPFilterRule.Bytes (p : IPFilterRule) : IPFilterRule × List Nat :=
  let r := p.toOctetString.Bytes
  (⟨r.1⟩, r.2)

/-! Basic facts about `pad4` used throughout. -/

theorem pad4_ge (n : Nat) : n ≤ pad4 n := by unfold pad4; omega

theorem pad4_lt (n : Nat) : pad4 n < n + 4 := by unfold pad4; omega

theorem pad4_mod (n : Nat) : pad4 n % 4 = 0 := by unfold pad4; omega

theorem pad4_eq_self (n : Nat) (h : n % 4 = 0) : pad4 n = n := by unfold pad4; omega

/-- The bytes produced for a value freshly set by `Put`: the input followed
by the padding zeros. -/
theorem octetString_bytes_put (b : List Nat) :
    ((freshOS.Put b).Bytes).2 = b ++ List.replicate (pad4 b.length - b.length) 0 := by
  simp [OctetString.Put, OctetString.Bytes, OctetString.updatePadding, freshOS]

/-- The octet-string round trip, computed: encoding `Put freshOS b` and
decoding into a fresh value stores `b` extended by the padding zeros. -/
theorem octetString_roundtrip_core (b : List Nat) :
    (freshOS.Put ((freshOS.Put b).Bytes).2).Value
      = b ++ List.replicate (pad4 b.length - b.length) 0 := by
  rw [octetString_bytes_put]; rfl

/-- C5: the padding function satisfies `pad4 n = ((n + 3) / 4) * 4` with
integer division; consequently `pad4 n - n ∈ {0,1,2,3}` (expressed as
`n ≤ pad4 n` and `pad4 n - n ≤ 3`) and `pad4 n % 4 = 0`. -/
theorem pad4_spec (n : Nat) :
    pad4 n = ((n + 3) / 4) * 4
    ∧ n ≤ pad4 n ∧ pad4 n - n ≤ 3 ∧ pad4 n % 4 = 0 := by
  unfold pad4; omega

/-- C1 counterexample: for the one-byte value `[97]` set by `Put`, encoding
with `Bytes` and decoding with `Put` into a fresh value does NOT recover the
original semantic value — the three padding octets become part of the
decoded `Value`. -/
theorem octet_roundtrip_counterexample :
    (freshOS.Put ((freshOS.Put [97]).Bytes).2).Value
      ≠ (freshOS.Put [97]).Value := by decide

/-- C1 (amended): for every octet-string-family value set by `Put b`, the
padding octets appended by `Bytes` are all zero, and — provided the length of
the semantic value is a multiple of 4, so that no padding is appended — the
round trip `u.Put (v.Bytes())` recovers the original `Value` for all four
types (`OctetString`, `UTF8String`, `DiameterIdentity`, `IPFilterRule`).
When the length is not a multiple of 4 the decoded value gains the padding
octets (see the counterexample). -/
theorem octet_family_roundtrip (b : List Nat) :
    (∀ x ∈ (((freshOS.Put b).Bytes).2).drop b.length, x = 0)
    ∧ (b.length % 4 = 0 →
        (freshOS.Put ((freshOS.Put b).Bytes).2).Value = b
        ∧ (freshUTF8.Put ((freshUTF8.Put b).Bytes).2).toOctetString.Value = b
        ∧ (freshDI.Put ((freshDI.Put b).Bytes).2).toOctetString.Value = b
        ∧ (freshIPFR.Put ((freshIPFR.Put b).Bytes).2).toOctetString.Value = b) := by
  have hos : ∀ h : b.length % 4 = 0,
      (freshOS.Put ((freshOS.Put b).Bytes).2).Value = b := by
    intro h
    rw [octetString_roundtrip_core, pad4_eq_self b.length h]
    simp
  refine ⟨?_, fun h => ⟨hos h, ?_, ?_, ?_⟩⟩
  · intro x hx
    rw [octetString_bytes_put, List.drop_left] at hx
    exact List.eq_of_mem_replicate hx
  · exact hos h
  · exact hos h
  · exact hos h

theorem octet_family_roundtrip_witness :
    ([97, 98, 99, 100].length % 4 = 0)
    ∧ (freshOS.Put ((freshOS.Put [97, 98, 99, 100]).Bytes).2).Value
        = [97, 98, 99, 100] :=
  ⟨by decide, ((octet_family_roundtrip [97, 98, 99, 100]).2 (by decide)).1⟩

/-- C2: code bug. `Length()` computes `uint32(len(Value)) - Padding`, but
`Value` as set by `Put` holds exactly the input bytes (no padding is stored
in it), so subtracting `Padding` is a slip: for a 1-byte input the `uint32`
subtraction `1 - 3` wraps around to `4294967294` instead of returning `1`,
contradicting the method's own documentation ("Returns length without
padding") and the treatment of `Value` as unpadded by `Bytes()`. -/
theorem octetString_length_bug :
    (freshOS.Put [97]).Length = 4294967294 := by decide

/-- C8 counterexample: for the state `{Value := [97,98,99,100], Padding := 3}`
(a stale nonzero `Padding` not matching `Value`), `Bytes` does NOT recompute
the padding — `updatePadding` only recomputes when `Padding = 0` — and
returns 7 octets, which is not `Value` followed by
`pad4(len Value) - len Value = 0` zeros and not a multiple of 4. -/
theorem octetString_bytes_counterexample :
    ((({ Value := [97, 98, 99, 100], Padding := 3 } : OctetString).Bytes).2
      = [97, 98, 99, 100, 0, 0, 0])
    ∧ ((({ Value := [97, 98, 99, 100], Padding := 3 } : OctetString).Bytes).2.length
        % 4 ≠ 0) := by decide

/-- C8 (amended): `Bytes` recomputes padding from the current `Value` only
when the stored `Padding` field is zero; in that case the output is exactly
`Value` followed by `pad4(len Value) - len Value` zero octets, its length is
`pad4(len Value)` — a multiple of 4 determined solely by `Value`. When
`Padding` is nonzero it is reused as-is and the output is `Value` followed by
that many zero octets. -/
theorem octetString_bytes_spec (os : OctetString) :
    (os.Padding = 0 →
      (os.Bytes).2
          = os.Value ++ List.replicate (pad4 os.Value.length - os.Value.length) 0
      ∧ (os.Bytes).2.length = pad4 os.Value.length
      ∧ (os.Bytes).2.length % 4 = 0)
    ∧ (os.Padding ≠ 0 → (os.Bytes).2 = os.Value ++ List.replicate os.Padding 0) := by
  constructor
  · intro h
    have hb : (os.Bytes).2
        = os.Value ++ List.replicate (pad4 os.Value.length - os.Value.length) 0 := by
      simp [OctetString.Bytes, OctetString.updatePadding, h]
    have hlen : (os.Bytes).2.length = pad4 os.Value.length := by
      rw [hb]
      simp [List.length_append, List.length_replicate]
      have := pad4_ge os.Value.length
      omega
    exact ⟨hb, hlen, by rw [hlen]; exact pad4_mod _⟩
  · intro h
    simp [OctetString.Bytes, OctetString.updatePadding, h]

theorem octetString_bytes_spec_witness :
    (({ Value := [97], Padding := 0 } : OctetString).Padding = 0)
    ∧ ((({ Value := [97], Padding := 0 } : OctetString).Bytes).2
        = [97] ++ List.replicate (pad4 1 - 1) 0) :=
  ⟨by decide,
    ((octetString_bytes_spec { Value := [97], Padding := 0 }).1 (by decide)).1⟩

/-! ## Numeric types (base/types.go lines 275-507)

Each Go numeric codec keeps the semantic `Value` and a `Buffer` holding the
last byte slice passed to `Put` or produced by `Bytes` (`nil` when unset).
`binary.Read` into a fixed-width value consumes exactly the needed octets
from the front of the buffer and leaves `Value` unchanged when the input is
too short (the read errors out before assigning); `binary.Write` emits the
big-endian bytes of the value. Signed values are serialized in
two's complement; floats by their IEEE-754 bit pattern (`Value` here is that
bit pattern, since the codec never interprets the bits). -/

/-- Two's-complement reading of a 32-bit big-endian quantity. -/
def int32ofNat (m : Nat) : Int :=
  if m < 2 ^ 31 then (m : Int) else (m : Int) - 2 ^ 32

/-- Two's-complement reading of a 64-bit big-endian quantity. -/
def int64ofNat (m : Nat) : Int :=
  if m < 2 ^ 63 then (m : Int) else (m : Int) - 2 ^ 64

/-- The `uint32` bit pattern of an `int32` value. -/
def uint32ofInt (v : Int) : Nat := (v % (2 ^ 32 : Int)).toNat

/-- The `uint64` bit pattern of an `int64` value. -/
def uint64ofInt (v : Int) : Nat := (v % (2 ^ 64 : Int)).toNat

/-- `Integer32` Diameter type: `Value int32; Buffer []byte`. -/
structure Integer32 where
  Value : Int
  Buffer : Option (List Nat)
  deriving DecidableEq, Repr

def freshI32 : Integer32 := { Value := 0, Buffer := none }

/-- `Integer32.Put`: stores the input in `Buffer` and big-endian-decodes its
first 4 octets into `Value`; a short input leaves `Value` unchanged. -/
def Integer32.Put (n : Integer32) (b : List Nat) : Integer32 :=
  { Buffer := some b,
    Value := if 4 ≤ b.length then int32ofNat (beDecode (b.take 4)) else n.Value }

/-- `Integer32.Bytes`: rewrites `Buffer` with the big-endian encoding of
`Value` and returns it. -/
def Integer32.Bytes (n : Integer32) : Integer32 × List Nat :=
  let b := beBytes 4 (uint32ofInt n.Value)
  ({ n with Buffer := some b }, b)

/-- `Integer32.Length`: if `Buffer` is nil, fills it via `Bytes`; returns
`uint32(len(Buffer))`. -/
def Integer32.Length (n : Integer32) : Nat :=
  match n.Buffer with
  | none => (n.Bytes).2.length % 2 ^ 32
  | some b => b.length % 2 ^ 32

/-- `Integer64` Diameter type: `Value int64; Buffer []byte`. -/
structure Integer64 where
  Value : Int
  Buffer : Option (List Nat)
  deriving DecidableEq, Repr

def freshI64 : Integer64 := { Value := 0, Buffer := none }

def Integer64.Put (n : Integer64) (b : List Nat) : Integer64 :=
  { Buffer := some b,
    Value := if 8 ≤ b.length then int64ofNat (beDecode (b.take 8)) else n.Value }

def Integer64.Bytes (n : Integer64) : Integer64 × List Nat :=
  let b := beBytes 8 (uint64ofInt n.Value)
  ({ n with Buffer := some b }, b)

def Integer64.Length (n : Integer64) : Nat :=
  match n.Buffer with
  | none => (n.Bytes).2.length % 2 ^ 32
  | some b => b.length % 2 ^ 32

/-- `Unsigned32` Diameter type: `Value uint32; Buffer []byte`. -/
structure Unsigned32 where
  Value : Nat
  Buffer : Option (List Nat)
  deriving DecidableEq, Repr

def freshU32 : Unsigned32 := { Value := 0, Buffer := none }

def Unsigned32.Put (n : Unsigned32) (b : List Nat) : Unsigned32 :=
  { Buffer := some b,
    Value := if 4 ≤ b.length then beDecode (b.take 4) else n.Value }

def Unsigned32.Bytes (n : Unsigned32) : Unsigned32 × List Nat :=
  let b := beBytes 4 n.Value
  ({ n with Buffer := some b }, b)

def Unsigned32.Length (n : Unsigned32) : Nat :=
  match n.Buffer with
  | none => (n.Bytes).2.length % 2 ^ 32
  | some b => b.length % 2 ^ 32

/-- `Unsigned64` Diameter type: `Value uint64; Buffer []byte`. -/
structure Unsigned64 where
  Value : Nat
  Buffer : Option (List Nat)
  deriving DecidableEq, Repr

def freshU64 : Unsigned64 := { Value := 0, Buffer := none }

def Unsigned64.Put (n : Unsigned64) (b : List Nat) : Unsigned64 :=
  { Buffer := some b,
    Value := if 8 ≤ b.length then beDecode (b.take 8) else n.Value }

def Unsigned64.Bytes (n : Unsigned64) : Unsigned64 × List Nat :=
  let b := beBytes 8 n.Value
  ({ n with Buffer := some b }, b)

def Unsigned64.Length (n : Unsigned64) : Nat :=
  match n.Buffer with
  | none => (n.Bytes).2.length % 2 ^ 32
  | some b => b.length % 2 ^ 32

/-- `Float32` Diameter type: `Value float32; Buffer []byte`. `Value` is
modelled by its IEEE-754 bit pattern (a `Nat` below `2^32`): the codec only
transports the bits. -/
structure Float32 where
  Value : Nat
  Buffer : Option (List Nat)
  deriving DecidableEq, Repr

def freshF32 : Float32 := { Value := 0, Buffer := none }

def Float32.Put (n : Float32) (b : List Nat) : Float32 :=
  { Buffer := some b,
    Value := if 4 ≤ b.length then beDecode (b.take 4) else n.Value }

def Float32.Bytes (n : Float32) : Float32 × List Nat :=
  let b := beBytes 4 n.Value
  ({ n with Buffer := some b }, b)

def Float32.Length (n : Float32) : Nat :=
  match n.Buffer with
  | none => (n.Bytes).2.length % 2 ^ 32
  | some b => b.length % 2 ^ 32

/-- `Float64` Diameter type: `Value float64; Buffer []byte`. `Value` is
modelled by its IEEE-754 bit pattern (a `Nat` below `2^64`). -/
structure Float64 where
  Value : Nat
  Buffer : Option (List Nat)
  deriving DecidableEq, Repr

def freshF64 : Float64 := { Value := 0, Buffer := none }

def Float64.Put (n : Float64) (b : List Nat) : Float64 :=
  { Buffer := some b,
    Value := if 8 ≤ b.length then beDecode (b.take 8) else n.Value }

def Float64.Bytes (n : Float64) : Float64 × List Nat :=
  let b := beBytes 8 n.Value
  ({ n with Buffer := some b }, b)

def Float64.Length (n : Float64) : Nat :=
  match n.Buffer with
  | none => (n.Bytes).2.length % 2 ^ 32
  | some b => b.length % 2 ^ 32

/-! Round-trip lemmas for the numeric encodings. -/

theorem take_beBytes (w n : Nat) : (beBytes w n).take w = beBytes w n := by
  have h := beBytes_length w n
  exact List.take_of_length_le (le_of_eq h)

theorem uint32ofInt_lt (v : Int) : uint32ofInt v < 2 ^ 32 := by
  unfold uint32ofInt
  have h1 : 0 ≤ v % (2 ^ 32 : Int) := Int.emod_nonneg v (by norm_num)
  have h2 : v % (2 ^ 32 : Int) < 2 ^ 32 := Int.emod_lt_of_pos v (by norm_num)
  omega

theorem uint64ofInt_lt (v : Int) : uint64ofInt v < 2 ^ 64 := by
  unfold uint64ofInt
  have h1 : 0 ≤ v % (2 ^ 64 : Int) := Int.emod_nonneg v (by norm_num)
  have h2 : v % (2 ^ 64 : Int) < 2 ^ 64 := Int.emod_lt_of_pos v (by norm_num)
  omega

theorem int32ofNat_uint32ofInt (v : Int) (h1 : -(2 ^ 31) ≤ v) (h2 : v < 2 ^ 31) :
    int32ofNat (uint32ofInt v) = v := by
  unfold int32ofNat uint32ofInt
  split <;> omega

theorem int64ofNat_uint64ofInt (v : Int) (h1 : -(2 ^ 63) ≤ v) (h2 : v < 2 ^ 63) :
    int64ofNat (uint64ofInt v) = v := by
  unfold int64ofNat uint64ofInt
  split <;> omega

theorem integer32_roundtrip (s : Integer32)
    (h1 : -(2 ^ 31) ≤ s.Value) (h2 : s.Value < 2 ^ 31) :
    (freshI32.Put (s.Bytes).2).Value = s.Value := by
  have hm : uint32ofInt s.Value % 256 ^ 4 = uint32ofInt s.Value :=
    Nat.mod_eq_of_lt (uint32ofInt_lt s.Value)
  simp only [Integer32.Put, Integer32.Bytes, beBytes_length, take_beBytes,
    beDecode_beBytes, hm, le_refl, if_pos]
  exact int32ofNat_uint32ofInt s.Value h1 h2

theorem integer64_roundtrip (s : Integer64)
    (h1 : -(2 ^ 63) ≤ s.Value) (h2 : s.Value < 2 ^ 63) :
    (freshI64.Put (s.Bytes).2).Value = s.Value := by
  have hm : uint64ofInt s.Value % 256 ^ 8 = uint64ofInt s.Value :=
    Nat.mod_eq_of_lt (uint64ofInt_lt s.Value)
  simp only [Integer64.Put, Integer64.Bytes, beBytes_length, take_beBytes,
    beDecode_beBytes, hm, le_refl, if_pos]
  exact int64ofNat_uint64ofInt s.Value h1 h2

theorem unsigned32_roundtrip (s : Unsigned32) (h : s.Value < 2 ^ 32) :
    (freshU32.Put (s.Bytes).2).Value = s.Value := by
  have hlen : ((s.Bytes).2).length = 4 := beBytes_length 4 _
  simp only [Unsigned32.Put, Unsigned32.Bytes, hlen, le_refl, if_pos]
  rw [take_beBytes, beDecode_beBytes]
  exact Nat.mod_eq_of_lt h

theorem unsigned64_roundtrip (s : Unsigned64) (h : s.Value < 2 ^ 64) :
    (freshU64.Put (s.Bytes).2).Value = s.Value := by
  have hlen : ((s.Bytes).2).length = 8 := beBytes_length 8 _
  simp only [Unsigned64.Put, Unsigned64.Bytes, hlen, le_refl, if_pos]
  rw [take_beBytes, beDecode_beBytes]
  exact Nat.mod_eq_of_lt h

theorem float32_roundtrip (s : Float32) (h : s.Value < 2 ^ 32) :
    (freshF32.Put (s.Bytes).2).Value = s.Value := by
  have hlen : ((s.Bytes).2).length = 4 := beBytes_length 4 _
  simp only [Float32.Put, Float32.Bytes, hlen, le_refl, if_pos]
  rw [take_beBytes, beDecode_beBytes]
  exact Nat.mod_eq_of_lt h

theorem float64_roundtrip (s : Float64) (h : s.Value < 2 ^ 64) :
    (freshF64.Put (s.Bytes).2).Value = s.Value := by
  have hlen : ((s.Bytes).2).length = 8 := beBytes_length 8 _
  simp only [Float64.Put, Float64.Bytes, hlen, le_refl, if_pos]
  rw [take_beBytes, beDecode_beBytes]
  exact Nat.mod_eq_of_lt h

/-- C9: encoding with `Bytes` then decoding with `Put` on a fresh value
reproduces the original value bit-for-bit for every representable value of
all six numeric types (signed values range over the two's-complement range,
unsigned over the width, floats over their bit patterns). -/
theorem numeric_roundtrip
    (i32 : Integer32) (i64 : Integer64) (u32 : Unsigned32) (u64 : Unsigned64)
    (f32 : Float32) (f64 : Float64)
    (hi32l : -(2 ^ 31) ≤ i32.Value) (hi32u : i32.Value < 2 ^ 31)
    (hi64l : -(2 ^ 63) ≤ i64.Value) (hi64u : i64.Value < 2 ^ 63)
    (hu32 : u32.Value < 2 ^ 32) (hu64 : u64.Value < 2 ^ 64)
    (hf32 : f32.Value < 2 ^ 32) (hf64 : f64.Value < 2 ^ 64) :
    (freshI32.Put (i32.Bytes).2).Value = i32.Value
    ∧ (freshI64.Put (i64.Bytes).2).Value = i64.Value
    ∧ (freshU32.Put (u32.Bytes).2).Value = u32.Value
    ∧ (freshU64.Put (u64.Bytes).2).Value = u64.Value
    ∧ (freshF32.Put (f32.Bytes).2).Value = f32.Value
    ∧ (freshF64.Put (f64.Bytes).2).Value = f64.Value :=
  ⟨integer32_roundtrip i32 hi32l hi32u, integer64_roundtrip i64 hi64l hi64u,
   unsigned32_roundtrip u32 hu32, unsigned64_roundtrip u64 hu64,
   float32_roundtrip f32 hf32, float64_roundtrip f64 hf64⟩

/-- C9 witness at boundary values: `-2^31` for `Integer32`, `-1` for
`Integer64`, `2^32 - 1` for `Unsigned32`, `0` for `Unsigned64`, and sample
bit patterns for the floats. -/
theorem numeric_roundtrip_witness :
    (freshI32.Put ((Integer32.Bytes { Value := -(2 ^ 31), Buffer := none }).2)).Value
        = -(2 ^ 31)
    ∧ (freshI64.Put ((Integer64.Bytes { Value := -1, Buffer := none }).2)).Value = -1
    ∧ (freshU32.Put ((Unsigned32.Bytes { Value := 4294967295, Buffer := none }).2)).Value
        = 4294967295
    ∧ (freshU64.Put ((Unsigned64.Bytes { Value := 0, Buffer := none }).2)).Value = 0
    ∧ (freshF32.Put ((Float32.Bytes { Value := 1078530011, Buffer := none }).2)).Value
        = 1078530011
    ∧ (freshF64.Put ((Float64.Bytes { Value := 4614256656552045848, Buffer := none }).2)).Value
        = 4614256656552045848 :=
  numeric_roundtrip
    { Value := -(2 ^ 31), Buffer := none } { Value := -1, Buffer := none }
    { Value := 4294967295, Buffer := none } { Value := 0, Buffer := none }
    { Value := 1078530011, Buffer := none } { Value := 4614256656552045848, Buffer := none }
    (by norm_num) (by norm_num) (by norm_num) (by norm_num)
    (by norm_num) (by norm_num) (by norm_num) (by norm_num)

/-! ## Operation sequences over the numeric codecs (for the Length invariant) -/

/-- An abstract call to a numeric codec: either `Put` with some input bytes
or `Bytes`. -/
inductive NumOp where
  | put (b : List Nat)
  | bytes
  deriving DecidableEq, Repr

/-- Every `put` in the sequence carries exactly `w` octets. -/
def putsSized (w : Nat) (ops : List NumOp) : Bool :=
  ops.all fun op =>
    match op with
    | NumOp.put b => b.length == w
    | NumOp.bytes => true

/-- The buffer is unset or holds exactly `w` octets. -/
def bufSized (w : Nat) : Option (List Nat) → Prop
  | none => True
  | some b => b.length = w

def Integer32.run : Integer32 → List NumOp → Integer32
  | s, [] => s
  | s, NumOp.put b :: ops => Integer32.run (s.Put b) ops
  | s, NumOp.bytes :: ops => Integer32.run (s.Bytes).1 ops

def Integer64.run : Integer64 → List NumOp → Integer64
  | s, [] => s
  | s, NumOp.put b :: ops => Integer64.run (s.Put b) ops
  | s, NumOp.bytes :: ops => Integer64.run (s.Bytes).1 ops

def Unsigned32.run : Unsigned32 → List NumOp → Unsigned32
  | s, [] => s
  | s, NumOp.put b :: ops => Unsigned32.run (s.Put b) ops
  | s, NumOp.bytes :: ops => Unsigned32.run (s.Bytes).1 ops

def Unsigned64.run : Unsigned64 → List NumOp → Unsigned64
  | s, [] => s
  | s, NumOp.put b :: ops => Unsigned64.run (s.Put b) ops
  | s, NumOp.bytes :: ops => Unsigned64.run (s.Bytes).1 ops

def Float32.run : Float32 → List NumOp → Float32
  | s, [] => s
  | s, NumOp.put b :: ops => Float32.run (s.Put b) ops
  | s, NumOp.bytes :: ops => Float32.run (s.Bytes).1 ops

def Float64.run : Float64 → List NumOp → Float64
  | s, [] => s
  | s, NumOp.put b :: ops => Float64.run (s.Put b) ops
  | s, NumOp.bytes :: ops => Float64.run (s.Bytes).1 ops

theorem integer32_run_buf (ops : List NumOp) (h : putsSized 4 ops = true) :
    ∀ s : Integer32, bufSized 4 s.Buffer → bufSized 4 (Integer32.run s ops).Buffer := by
  induction ops with
  | nil => intro s hs; exact hs
  | cons op rest ih =>
    simp only [putsSized, List.all_cons, Bool.and_eq_true] at h
    intro s hs
    cases op with
    | put b =>
      have hb : b.length = 4 := by simpa using h.1
      exact ih h.2 (s.Put b) (by simp [Integer32.Put, bufSized, hb])
    | bytes =>
      exact ih h.2 (s.Bytes).1 (by simp [Integer32.Bytes, bufSized, beBytes_length])

theorem integer64_run_buf (ops : List NumOp) (h : putsSized 8 ops = true) :
    ∀ s : Integer64, bufSized 8 s.Buffer → bufSized 8 (Integer64.run s ops).Buffer := by
  induction ops with
  | nil => intro s hs; exact hs
  | cons op rest ih =>
    simp only [putsSized, List.all_cons, Bool.and_eq_true] at h
    intro s hs
    cases op with
    | put b =>
      have hb : b.length = 8 := by simpa using h.1
      exact ih h.2 (s.Put b) (by simp [Integer64.Put, bufSized, hb])
    | bytes =>
      exact ih h.2 (s.Bytes).1 (by simp [Integer64.Bytes, bufSized, beBytes_length])

theorem unsigned32_run_buf (ops : List NumOp) (h : putsSized 4 ops = true) :
    ∀ s : Unsigned32, bufSized 4 s.Buffer → bufSized 4 (Unsigned32.run s ops).Buffer := by
  induction ops with
  | nil => intro s hs; exact hs
  | cons op rest ih =>
    simp only [putsSized, List.all_cons, Bool.and_eq_true] at h
    intro s hs
    cases op with
    | put b =>
      have hb : b.length = 4 := by simpa using h.1
      exact ih h.2 (s.Put b) (by simp [Unsigned32.Put, bufSized, hb])
    | bytes =>
      exact ih h.2 (s.Bytes).1 (by simp [Unsigned32.Bytes, bufSized, beBytes_length])

theorem unsigned64_run_buf (ops : List NumOp) (h : putsSized 8 ops = true) :
    ∀ s : Unsigned64, bufSized 8 s.Buffer → bufSized 8 (Unsigned64.run s ops).Buffer := by
  induction ops with
  | nil => intro s hs; exact hs
  | cons op rest ih =>
    simp only [putsSized, List.all_cons, Bool.and_eq_true] at h
    intro s hs
    cases op with
    | put b =>
      have hb : b.length = 8 := by simpa using h.1
      exact ih h.2 (s.Put b) (by simp [Unsigned64.Put, bufSized, hb])
    | bytes =>
      exact ih h.2 (s.Bytes).1 (by simp [Unsigned64.Bytes, bufSized, beBytes_length])

theorem float32_run_buf (ops : List NumOp) (h : putsSized 4 ops = true) :
    ∀ s : Float32, bufSized 4 s.Buffer → bufSized 4 (Float32.run s ops).Buffer := by
  induction ops with
  | nil => intro s hs; exact hs
  | cons op rest ih =>
    simp only [putsSized, List.all_cons, Bool.and_eq_true] at h
    intro s hs
    cases op with
    | put b =>
      have hb : b.length = 4 := by simpa using h.1
      exact ih h.2 (s.Put b) (by simp [Float32.Put, bufSized, hb])
    | bytes =>
      exact ih h.2 (s.Bytes).1 (by simp [Float32.Bytes, bufSized, beBytes_length])

theorem float64_run_buf (ops : List NumOp) (h : putsSized 8 ops = true) :
    ∀ s : Float64, bufSized 8 s.Buffer → bufSized 8 (Float64.run s ops).Buffer := by
  induction ops with
  | nil => intro s hs; exact hs
  | cons op rest ih =>
    simp only [putsSized, List.all_cons, Bool.and_eq_true] at h
    intro s hs
    cases op with
    | put b =>
      have hb : b.length = 8 := by simpa using h.1
      exact ih h.2 (s.Put b) (by simp [Float64.Put, bufSized, hb])
    | bytes =>
      exact ih h.2 (s.Bytes).1 (by simp [Float64.Bytes, bufSized, beBytes_length])

theorem integer32_length_of_buf (s : Integer32) (h : bufSized 4 s.Buffer) :
    s.Length = 4 := by
  unfold Integer32.Length
  cases hb : s.Buffer with
  | none => simp [Integer32.Bytes, beBytes_length]
  | some b =>
    rw [hb] at h
    simp only [bufSized] at h
    simp [h]

theorem integer64_length_of_buf (s : Integer64) (h : bufSized 8 s.Buffer) :
    s.Length = 8 := by
  unfold Integer64.Length
  cases hb : s.Buffer with
  | none => simp [Integer64.Bytes, beBytes_length]
  | some b =>
    rw [hb] at h
    simp only [bufSized] at h
    simp [h]

theorem unsigned32_length_of_buf (s : Unsigned32) (h : bufSized 4 s.Buffer) :
    s.Length = 4 := by
  unfold Unsigned32.Length
  cases hb : s.Buffer with
  | none => simp [Unsigned32.Bytes, beBytes_length]
  | some b =>
    rw [hb] at h
    simp only [bufSized] at h
    simp [h]

theorem unsigned64_length_of_buf (s : Unsigned64) (h : bufSized 8 s.Buffer) :
    s.Length = 8 := by
  unfold Unsigned64.Length
  cases hb : s.Buffer with
  | none => simp [Unsigned64.Bytes, beBytes_length]
  | some b =>
    rw [hb] at h
    simp only [bufSized] at h
    simp [h]

theorem float32_length_of_buf (s : Float32) (h : bufSized 4 s.Buffer) :
    s.Length = 4 := by
  unfold Float32.Length
  cases hb : s.Buffer with
  | none => simp [Float32.Bytes, beBytes_length]
  | some b =>
    rw [hb] at h
    simp only [bufSized] at h
    simp [h]

theorem float64_length_of_buf (s : Float64) (h : bufSized 8 s.Buffer) :
    s.Length = 8 := by
  unfold Float64.Length
  cases hb : s.Buffer with
  | none => simp [Float64.Bytes, beBytes_length]
  | some b =>
    rw [hb] at h
    simp only [bufSized] at h
    simp [h]

/-- C6 counterexample: `Put` applied to a 2-octet input stores that input in
`Buffer`, and `Length()` then returns `uint32(len(Buffer)) = 2`, not 4. -/
theorem numeric_length_counterexample :
    (freshI32.Put [0, 1]).Length = 2 ∧ (freshI32.Put [0, 1]).Length ≠ 4 := by
  decide

/-- C6 (amended): starting from a fresh value, after any sequence of `Put`
and `Bytes` operations in which every `Put` input has the type's expected
octet count (4 for the 32-bit types, 8 for the 64-bit types), `Length()`
returns 4 resp. 8. A `Put` whose input has a different octet count makes
`Length()` return that input's octet count instead (see the
counterexample). -/
theorem numeric_length_fixed (ops : List NumOp) :
    (putsSized 4 ops = true →
      (Integer32.run freshI32 ops).Length = 4
      ∧ (Unsigned32.run freshU32 ops).Length = 4
      ∧ (Float32.run freshF32 ops).Length = 4)
    ∧ (putsSized 8 ops = true →
      (Integer64.run freshI64 ops).Length = 8
      ∧ (Unsigned64.run freshU64 ops).Length = 8
      ∧ (Float64.run freshF64 ops).Length = 8) := by
  constructor
  · intro h
    refine ⟨integer32_length_of_buf _ ?_, unsigned32_length_of_buf _ ?_,
      float32_length_of_buf _ ?_⟩
    · exact integer32_run_buf ops h freshI32 trivial
    · exact unsigned32_run_buf ops h freshU32 trivial
    · exact float32_run_buf ops h freshF32 trivial
  · intro h
    refine ⟨integer64_length_of_buf _ ?_, unsigned64_length_of_buf _ ?_,
      float64_length_of_buf _ ?_⟩
    · exact integer64_run_buf ops h freshI64 trivial
    · exact unsigned64_run_buf ops h freshU64 trivial
    · exact float64_run_buf ops h freshF64 trivial

theorem numeric_length_fixed_witness :
    ((Integer32.run freshI32 [NumOp.put [1, 2, 3, 4], NumOp.bytes]).Length = 4)
    ∧ ((Integer64.run freshI64 [NumOp.put [1, 2, 3, 4, 5, 6, 7, 8]]).Length = 8) :=
  ⟨((numeric_length_fixed [NumOp.put [1, 2, 3, 4], NumOp.bytes]).1 (by decide)).1,
   ((numeric_length_fixed [NumOp.put [1, 2, 3, 4, 5, 6, 7, 8]]).2 (by decide)).1⟩

/-! ## Address (base/types.go lines 138-203) -/

/-- `Address` Diameter type: `Family []byte; IP net.IP; Padding int`.
The parsed IP is modelled as the list of its four octets (`none` for Go's
nil `net.IP`). -/
structure Address where
  Family : List Nat
  IP : Option (List Nat)
  Padding : Nat
  deriving DecidableEq, Repr

/-- A fresh zero `Address` (nil family, nil IP, 0 padding). -/
def freshAddr : Address := { Family := [], IP := none, Padding := 0 }

/-- `Address.Put`: accepts the input only when it has at least 6 octets and
its second octet is 1 (`AF_INET`); it then stores the first two octets as
the family, octets 2..5 as the IPv4 address and padding 2, ignoring any
further octets. Any other input leaves the receiver untouched and produces
no error (`Put` has no error result). -/
def Address.Put (addr : Address) (b : List Nat) : Address :=
  if 6 ≤ b.length ∧ b.getD 1 0 = 1 then
    { Family := [b.getD 0 0, b.getD 1 0],
      IP := some [b.getD 2 0, b.getD 3 0, b.getD 4 0, b.getD 5 0],
      Padding := 2 }
  else addr

/-- C7 counterexample: for an IPv6-family input (family tag `{0,2}`, length
6), `Address.Put` silently returns with the receiver entirely unchanged —
no "unsupported address family" error is surfaced to the caller (the
method's signature carries no error result at all). -/
theorem address_put_no_error_counterexample :
    Address.Put freshAddr [0, 2, 0, 0, 0, 1] = freshAddr := by decide

/-- C7 (amended): for every input whose address-family tag is not IPv4
(second octet ≠ 1) or that is shorter than 6 octets, `Address.Put` is a
silent no-op: the `Address` value is left entirely unchanged (so it is never
partially populated), and no error is produced — `Put` has no error result,
so the unsupported-family condition is NOT visible to the caller. -/
theorem address_put_rejects_silently (addr : Address) (b : List Nat)
    (h : ¬(6 ≤ b.length ∧ b.getD 1 0 = 1)) :
    addr.Put b = addr := by
  unfold Address.Put
  rw [if_neg h]

theorem address_put_rejects_silently_witness :
    Address.Put freshAddr [0, 1, 2] = freshAddr :=
  address_put_rejects_silently freshAddr [0, 1, 2] (by decide)

/-- C10: `Address.Put` classifies its input by the second family octet and
the total length alone: any input with at least 6 octets whose second octet
is 1 is accepted as IPv4 — regardless of the first family octet, which is
stored verbatim — storing octets 2..5 as the address and padding 2, and the
result depends only on the first six octets; every other input leaves the
`Address` entirely unchanged. -/
theorem address_put_classification (addr : Address) (b : List Nat) :
    (6 ≤ b.length → b.getD 1 0 = 1 →
      addr.Put b = { Family := [b.getD 0 0, b.getD 1 0],
                     IP := some [b.getD 2 0, b.getD 3 0, b.getD 4 0, b.getD 5 0],
                     Padding := 2 }
      ∧ ∀ extra : List Nat, b.length = 6 → addr.Put (b ++ extra) = addr.Put b)
    ∧ (¬(6 ≤ b.length ∧ b.getD 1 0 = 1) → addr.Put b = addr) := by
  constructor
  · intro h6 h1
    constructor
    · unfold Address.Put
      rw [if_pos ⟨h6, h1⟩]
    · intro extra hlen
      have hget : ∀ i : Nat, i < 6 → (b ++ extra).getD i 0 = b.getD i 0 := by
        intro i hi
        apply List.getD_append
        omega
      have hcond : 6 ≤ (b ++ extra).length ∧ (b ++ extra).getD 1 0 = 1 := by
        constructor
        · rw [List.length_append]; omega
        · rw [hget 1 (by omega)]; exact h1
      unfold Address.Put
      rw [if_pos hcond, if_pos ⟨h6, h1⟩]
      rw [hget 0 (by omega), hget 1 (by omega), hget 2 (by omega),
        hget 3 (by omega), hget 4 (by omega), hget 5 (by omega)]
  · intro h
    unfold Address.Put
    rw [if_neg h]

theorem address_put_classification_witness :
    Address.Put freshAddr [255, 1, 192, 0, 2, 1]
      = { Family := [255, 1], IP := some [192, 0, 2, 1], Padding := 2 } :=
  ((address_put_classification freshAddr [255, 1, 192, 0, 2, 1]).1
    (by decide) (by decide)).1

/-! ## Watchdog handler `handleDWR` (sm package)

The handler body is under the provided sources; its collaborators
(`diam.Conn`, `diam.Message`, `smparser.DWR`, the `avp` and `datatype`
packages) are not, and are modelled from the spec below. -/

/-- Modelled from the spec: a mandatory AVP slot of an inbound message —
absent, present but malformed, or present with a decoded value (the
message/AVP abstraction is external to the provided sources). -/
inductive Field (α : Type) where
  | absent
  | malformed
  | present (v : α)
  deriving DecidableEq, Repr

/-- Modelled from the spec: the view of an inbound message the watchdog
handler needs — lookup of the three mandatory AVPs. -/
structure Message where
  originHost : Field String
  originRealm : Field String
  originStateID : Field Nat
  deriving DecidableEq, Repr

/-- Modelled from the spec: the typed parse failure of the mandatory-field
structure (missing-field / malformed-field, per field). -/
inductive ParseError where
  | missingOriginHost
  | malformedOriginHost
  | missingOriginRealm
  | malformedOriginRealm
  | missingOriginStateID
  | malformedOriginStateID
  deriving DecidableEq, Repr

/-- Modelled from the spec: the parsed mandatory-field structure of a
Device-Watchdog-Request. -/
structure DWR where
  originHost : String
  originRealm : String
  originStateID : Nat
  deriving DecidableEq, Repr

/-- Modelled from the spec: `smparser.DWR.Parse` requires Origin-Host,
Origin-Realm and Origin-State-Id and returns a typed error when any of them
is absent or malformed. -/
def DWRParse (m : Message) : Except ParseError DWR :=
  match m.originHost with
  | Field.absent => Except.error ParseError.missingOriginHost
  | Field.malformed => Except.error ParseError.malformedOriginHost
  | Field.present oh =>
    match m.originRealm with
    | Field.absent => Except.error ParseError.missingOriginRealm
    | Field.malformed => Except.error ParseError.malformedOriginRealm
    | Field.present orl =>
      match m.originStateID with
      | Field.absent => Except.error ParseError.missingOriginStateID
      | Field.malformed => Except.error ParseError.malformedOriginStateID
      | Field.present oid =>
        Except.ok { originHost := oh, originRealm := orl, originStateID := oid }

namespace avp

/-- Modelled from the spec: AVP code of Origin-Host (external dictionary). -/
def OriginHost : Nat := 264

/-- Modelled from the spec: AVP code of Origin-Realm (external dictionary). -/
def OriginRealm : Nat := 296

/-- Modelled from the spec: AVP code of Origin-State-Id (external dictionary). -/
def OriginStateID : Nat := 278

/-- Modelled from the spec: the mandatory flag bit. -/
def Mbit : Nat := 64

end avp

namespace diam

/-- Modelled from the spec: the Success result code. -/
def Success : Nat := 2001

end diam

/-- An AVP as appended by `a.NewAVP(code, flags, vendor, value)`. -/
structure AVP where
  code : Nat
  flags : Nat
  vendor : Nat
  data : String ⊕ Nat
  deriving DecidableEq, Repr

/-- Modelled from the spec: the answer message built by `m.Answer(code)` —
pre-populated with a settable result code — to which `NewAVP` appends AVPs
in call order. -/
structure Answer where
  resultCode : Nat
  avps : List AVP
  deriving DecidableEq, Repr

/-- The state machine's configuration: local identity. -/
structure SMConfig where
  OriginHost : String
  OriginRealm : String
  deriving DecidableEq, Repr

/-- An error returned by `a.WriteTo(c)`, modelled abstractly. -/
structure WriteError where
  msg : String
  deriving DecidableEq, Repr

/-- The error carried by an `ErrorReport`: the parse failure or the write
failure. -/
inductive HandlerError where
  | parse (e : ParseError)
  | write (e : WriteError)
  deriving DecidableEq, Repr

/-- `diam.ErrorReport{Conn, Message, Error}` as passed to `sm.Error`. -/
structure ErrorReport (C : Type) where
  Conn : C
  Message : GoDiameter.Message
  Error : HandlerError
  deriving DecidableEq, Repr

/-- An externally visible action of the handler, in order: writing an answer
to a connection, emitting an error report through `sm.Error`, or closing a
connection (which `handleDWR` never does). -/
inductive Effect (C : Type) where
  | writeAnswer (c : C) (a : Answer)
  | emitError (r : ErrorReport C)
  | closeConn (c : C)
  deriving DecidableEq, Repr

/-- Embedding of `handleDWR` (sm package). External inputs are explicit:
`now` is the value of `time.Now().Unix()` and `wres` the outcome of
`a.WriteTo(c)` (`none` = write succeeded). The result is the ordered list of
externally visible effects of one handler invocation. Mirrors the source:
parse; on error report `{c, m, err}` and return; otherwise build the answer
with result code Success, the configured Origin-Host and Origin-Realm, and
`Unsigned32(time.Now().Unix())` (truncation to `uint32`) as Origin-State-Id,
write it, and report `{c, m, err}` if the write fails. -/
def handleDWR {C : Type} (cfg : SMConfig) (now : Nat) (wres : Option WriteError)
    (c : C) (m : Message) : List (Effect C) :=
  match DWRParse m with
  | Except.error err =>
    [Effect.emitError { Conn := c, Message := m, Error := HandlerError.parse err }]
  | Except.ok _ =>
    let a : Answer :=
      { resultCode := diam.Success,
        avps := [
          { code := avp.OriginHost, flags := avp.Mbit, vendor := 0,
            data := Sum.inl cfg.OriginHost },
          { code := avp.OriginRealm, flags := avp.Mbit, vendor := 0,
            data := Sum.inl cfg.OriginRealm },
          { code := avp.OriginStateID, flags := avp.Mbit, vendor := 0,
            data := Sum.inr (now % 2 ^ 32) }] }
    Effect.writeAnswer c a ::
      (match wres with
       | none => []
       | some err =>
         [Effect.emitError { Conn := c, Message := m, Error := HandlerError.write err }])

/-- C3: when the mandatory fields of a Device-Watchdog-Request parse
successfully and the write succeeds, the handler performs exactly one
effect: writing, on the same connection, one answer whose result code is
Success and whose AVPs are exactly the configured Origin-Host and
Origin-Realm and an Origin-State-Id freshly derived from the current time
(`uint32` truncation of the Unix-seconds clock). In particular no error
report is emitted. -/
theorem handleDWR_success {C : Type} (cfg : SMConfig) (now : Nat)
    (c : C) (m : Message) (dwr : DWR) (h : DWRParse m = Except.ok dwr) :
    handleDWR cfg now none c m =
      [Effect.writeAnswer c
        { resultCode := diam.Success,
          avps := [
            { code := avp.OriginHost, flags := avp.Mbit, vendor := 0,
              data := Sum.inl cfg.OriginHost },
            { code := avp.OriginRealm, flags := avp.Mbit, vendor := 0,
              data := Sum.inl cfg.OriginRealm },
            { code := avp.OriginStateID, flags := avp.Mbit, vendor := 0,
              data := Sum.inr (now % 2 ^ 32) }] }] := by
  unfold handleDWR
  rw [h]

theorem handleDWR_success_witness :
    handleDWR { OriginHost := "local.host", OriginRealm := "local.realm" }
        1700000000 none (0 : Nat)
        { originHost := Field.present ("peerA"),
          originRealm := Field.present ("realm.test"),
          originStateID := Field.present 7 } =
      [Effect.writeAnswer 0
        { resultCode := diam.Success,
          avps := [
            { code := avp.OriginHost, flags := avp.Mbit, vendor := 0,
              data := Sum.inl ("local.host") },
            { code := avp.OriginRealm, flags := avp.Mbit, vendor := 0,
              data := Sum.inl ("local.realm") },
            { code := avp.OriginStateID, flags := avp.Mbit, vendor := 0,
              data := Sum.inr (1700000000 % 2 ^ 32) }] }] :=
  handleDWR_success _ 1700000000 0 _
    { originHost := "peerA", originRealm := "realm.test", originStateID := 7 } rfl

/-- C4: when the mandatory-field parse of a Device-Watchdog-Request fails,
the handler's only effect is exactly one error report carrying the
connection handle, the original message and the parse failure: no answer is
written on any connection, and the connection is not closed (the handler
returns with it left open), whatever the write outcome parameter would have
been. -/
theorem handleDWR_parse_failure {C : Type} (cfg : SMConfig) (now : Nat)
    (wres : Option WriteError) (c : C) (m : Message) (e : ParseError)
    (h : DWRParse m = Except.error e) :
    handleDWR cfg now wres c m =
      [Effect.emitError { Conn := c, Message := m, Error := HandlerError.parse e }]
    ∧ (∀ (c' : C) (a : Answer), Effect.writeAnswer c' a ∉ handleDWR cfg now wres c m)
    ∧ (∀ c' : C, Effect.closeConn c' ∉ handleDWR cfg now wres c m) := by
  have h1 : handleDWR cfg now wres c m =
      [Effect.emitError { Conn := c, Message := m, Error := HandlerError.parse e }] := by
    unfold handleDWR
    rw [h]
  refine ⟨h1, ?_, ?_⟩
  · intro c' a
    rw [h1]
    simp
  · intro c'
    rw [h1]
    simp

theorem handleDWR_parse_failure_witness :
    handleDWR { OriginHost := "local.host", OriginRealm := "local.realm" }
        1700000000 none (0 : Nat)
        { originHost := Field.present ("peerA"),
          originRealm := Field.absent,
          originStateID := Field.present 7 } =
      [Effect.emitError
        { Conn := 0,
          Message := { originHost := Field.present ("peerA"),
                       originRealm := Field.absent,
                       originStateID := Field.present 7 },
          Error := HandlerError.parse ParseError.missingOriginRealm }] :=
  (handleDWR_parse_failure { OriginHost := "local.host", OriginRealm := "local.realm" }
    1700000000 none 0
    { originHost := Field.present ("peerA"),
      originRealm := Field.absent,
      originStateID := Field.present 7 }
    ParseError.missingOriginRealm rfl).1

end GoDiameter
